import Mathlib

/-!
Verification of the Waveshare 2.13" B V4 e-paper driver (`epd2in13b_v4`).

The driver is embedded shallowly: every SPI-visible action of the driver is
recorded as an `Event`, and each driver method from `mod.rs` is translated
into a pure Lean function from the driver state (the configured background
byte) to the list of events it emits.  The command/data framing follows the
Command Protocol Layer contract of the specification: `cmd_with_data`
produces one command event followed by one data event, `data_x_times`
produces one repeated-byte event, `wait_until_idle` produces one wait event.
-/

namespace Epd2in13bV4

/-- Observable bus actions emitted by the driver, in order.  `cmd` is a
single opcode byte sent with the data/command pin in command mode; `data`
is a payload byte list sent in data mode; `dataRep` is `data_x_times`
(one byte repeated `count` times); `waitIdle` is a busy-pin poll until the
controller reports idle. -/
inductive Event where
  | cmd (op : Nat)
  | data (bytes : List Nat)
  | dataRep (byte : Nat) (count : Nat)
  | waitIdle
deriving DecidableEq, Repr

/-- SPI commands of the 2.13" B V4 controller, from `command.rs`.
The constructors `MasterActivation`, `DisplayUpdateControl2` and
`WriteLutRegister` are referenced by `mod.rs` but their enum entries are
outside `src/`; they are modelled from the spec opcode table
(0x20 master activation, 0x22 display update control 2, 0x32 write LUT
register). -/
inductive Command where
  | DriverOutputControl
  | DeepSleepMode
  | DataEntryModeSetting
  | SwReset
  | TemperatureSensorRead
  | ActiveDisplayUpdateSequence
  | DisplayUpdateControl
  | WriteRam
  | WriteRamRed
  | BorderWaveformControl
  | SetRamXAddressStartEndPosition
  | SetRamYAddressStartEndPosition
  | SetRamXAddressCounter
  | SetRamYAddressCounter
  | MasterActivation
  | DisplayUpdateControl2
  | WriteLutRegister
deriving DecidableEq, Repr

/-- Returns the address of the command (`Command::address`). -/
def Command.address : Command → Nat
  | .DriverOutputControl => 0x01
  | .DeepSleepMode => 0x10
  | .DataEntryModeSetting => 0x11
  | .SwReset => 0x12
  | .TemperatureSensorRead => 0x18
  | .ActiveDisplayUpdateSequence => 0x20
  | .DisplayUpdateControl => 0x21
  | .WriteRam => 0x24
  | .WriteRamRed => 0x26
  | .BorderWaveformControl => 0x3C
  | .SetRamXAddressStartEndPosition => 0x44
  | .SetRamYAddressStartEndPosition => 0x45
  | .SetRamXAddressCounter => 0x4E
  | .SetRamYAddressCounter => 0x4F
  | .MasterActivation => 0x20
  | .DisplayUpdateControl2 => 0x22
  | .WriteLutRegister => 0x32

/-- Modelled from the spec (Command Protocol Layer): `send_command` frames a
single opcode byte. -/
def command (c : Command) : List Event := [Event.cmd c.address]

/-- Modelled from the spec (Command Protocol Layer): `send_command_with_data`
is `send_command` followed by the payload bytes in data mode. -/
def cmdWithData (c : Command) (d : List Nat) : List Event :=
  [Event.cmd c.address, Event.data d]

/-- Modelled from the spec (Command Protocol Layer): `send_data_repeated`
streams one byte `count` times. -/
def dataXTimes (byte count : Nat) : List Event := [Event.dataRep byte count]

/-- Modelled from the spec (Command Protocol Layer): `wait_until_idle` polls
the busy pin until idle. -/
def waitUntilIdle : List Event := [Event.waitIdle]

/-- Width of the display. -/
def WIDTH : Nat := 122

/-- Height of the display. -/
def HEIGHT : Nat := 250

/-- Modelled from the spec: `buffer_len` lives at the crate root, outside
`src/`; the spec gives row_length = ceil(width/8) bytes and full-plane size
= row_length * height. -/
def buffer_len (width height : Nat) : Nat := (width + 7) / 8 * height

/-- VBD option of the border waveform (`command.rs`). -/
inductive BorderWaveFormVbd where
  | Gs
  | FixLevel
  | Vcom
deriving DecidableEq, Repr

/-- Discriminant value of the `BorderWaveFormVbd` enum. -/
def BorderWaveFormVbd.toNat : BorderWaveFormVbd → Nat
  | .Gs => 0x0
  | .FixLevel => 0x1
  | .Vcom => 0x2

/-- Fix-level option of the border waveform (`command.rs`). -/
inductive BorderWaveFormFixLevel where
  | Vss
  | Vsh1
  | Vsl
  | Vsh2
deriving DecidableEq, Repr

/-- Discriminant value of the `BorderWaveFormFixLevel` enum. -/
def BorderWaveFormFixLevel.toNat : BorderWaveFormFixLevel → Nat
  | .Vss => 0x0
  | .Vsh1 => 0x1
  | .Vsl => 0x2
  | .Vsh2 => 0x3

/-- Gray-scale transition option of the border waveform (`command.rs`). -/
inductive BorderWaveFormGs where
  | Lut0
  | Lut1
  | Lut2
  | Lut3
deriving DecidableEq, Repr

/-- Discriminant value of the `BorderWaveFormGs` enum. -/
def BorderWaveFormGs.toNat : BorderWaveFormGs → Nat
  | .Lut0 => 0x0
  | .Lut1 => 0x1
  | .Lut2 => 0x2
  | .Lut3 => 0x3

/-- Border waveform configuration (`command.rs`). -/
structure BorderWaveForm where
  vbd : BorderWaveFormVbd
  fix_level : BorderWaveFormFixLevel
  gs_trans : BorderWaveFormGs
deriving DecidableEq, Repr

/-- `BorderWaveForm::to_u8`: bits 6..8 hold the VBD value, bits 4..6 the
fix level, bits 0..2 the gray-scale transition (all discriminants are
below 4, so the `set_bits` calls of `bit_field` are plain shifted ORs). -/
def BorderWaveForm.to_u8 (b : BorderWaveForm) : Nat :=
  (b.vbd.toNat <<< 6) ||| (b.fix_level.toNat <<< 4) ||| b.gs_trans.toNat

/-- Modelled from the spec: `DisplayUpdateControl2` lives in the part of
`command.rs` outside `src/`.  The spec describes it as an accumulating
bitmask in which each enable/disable/load/trigger action sets one fixed
bit before a master activation commits it; each action is assigned its
distinct controller bit here. -/
structure DisplayUpdateControl2Cfg where
  val : Nat
deriving DecidableEq, Repr

namespace DisplayUpdateControl2Cfg

/-- Fresh (all-clear) display-update-control-2 bitmask. -/
def new : DisplayUpdateControl2Cfg := ⟨0x00⟩

/-- Sets the enable-clock action bit. -/
def enableClock (d : DisplayUpdateControl2Cfg) : DisplayUpdateControl2Cfg :=
  ⟨d.val ||| 0x80⟩

/-- Sets the enable-analog action bit. -/
def enableAnalog (d : DisplayUpdateControl2Cfg) : DisplayUpdateControl2Cfg :=
  ⟨d.val ||| 0x40⟩

/-- Sets the load-temperature action bit. -/
def loadTemp (d : DisplayUpdateControl2Cfg) : DisplayUpdateControl2Cfg :=
  ⟨d.val ||| 0x20⟩

/-- Sets the load-LUT action bit. -/
def loadLut (d : DisplayUpdateControl2Cfg) : DisplayUpdateControl2Cfg :=
  ⟨d.val ||| 0x10⟩

/-- Sets the trigger-display action bit. -/
def display (d : DisplayUpdateControl2Cfg) : DisplayUpdateControl2Cfg :=
  ⟨d.val ||| 0x04⟩

/-- Sets the disable-analog action bit. -/
def disableAnalog (d : DisplayUpdateControl2Cfg) : DisplayUpdateControl2Cfg :=
  ⟨d.val ||| 0x02⟩

/-- Sets the disable-clock action bit. -/
def disableClock (d : DisplayUpdateControl2Cfg) : DisplayUpdateControl2Cfg :=
  ⟨d.val ||| 0x01⟩

end DisplayUpdateControl2Cfg

/-- Refresh LUT selector from the crate traits (referenced by `set_lut`
in `mod.rs`): full refresh or quick refresh. -/
inductive RefreshLut where
  | Full
  | Quick
deriving DecidableEq, Repr

/-- Driver state of `Epd2in13b`.  The source stores a `TriColor`
background color whose `get_byte_value()` (outside `src/`) supplies the
byte used for fills; the state here carries that byte directly, so every
theorem quantifies over the configured background-color byte. -/
structure Epd2in13b where
  background_color : Nat
deriving DecidableEq, Repr

/-- Sets both X and Y pixel ranges (`set_ram_area` in `mod.rs`): the
X-range command carries `[start_x >> 3, end_x >> 3]` and the Y-range
command carries each Y bound as a little-endian 16-bit pair.  The `% 256`
is the `as u8` truncation of the source. -/
def setRamArea (start_x start_y end_x end_y : Nat) : List Event :=
  cmdWithData .SetRamXAddressStartEndPosition
    [(start_x >>> 3) % 256, (end_x >>> 3) % 256] ++
  cmdWithData .SetRamYAddressStartEndPosition
    [start_y % 256, (start_y >>> 8) % 256, end_y % 256, (end_y >>> 8) % 256]

/-- Sets both X and Y pixel counters (`set_ram_address_counters` in
`mod.rs`); waits until idle first. -/
def setRamAddressCounters (x y : Nat) : List Event :=
  waitUntilIdle ++
  cmdWithData .SetRamXAddressCounter [(x >>> 3) % 256] ++
  cmdWithData .SetRamYAddressCounter [y % 256, (y >>> 8) % 256]

/-- `update_frame` from `mod.rs`: asserts the buffer is exactly one full
plane (`none` models the fatal assertion), programs the full-panel RAM
window and origin counters, writes the buffer to the achromatic bank
(0x24), then re-programs the window and fills the chromatic bank (0x26)
with the background byte over the full plane (the source's `if true`
block). -/
def updateFrame (e : Epd2in13b) (buffer : List Nat) :
    Option (Epd2in13b × List Event) :=
  if buffer.length = buffer_len WIDTH HEIGHT then
    some (e,
      setRamArea 0 0 (WIDTH - 1) (HEIGHT - 1) ++
      setRamAddressCounters 0 0 ++
      cmdWithData .WriteRam buffer ++
      setRamArea 0 0 (WIDTH - 1) (HEIGHT - 1) ++
      setRamAddressCounters 0 0 ++
      command .WriteRamRed ++
      dataXTimes e.background_color (buffer_len WIDTH HEIGHT))
  else none

/-- `update_partial_frame` from `mod.rs`: asserts
`width * height / 8 == buffer.len()`, then programs the window
`(x, y, x + width, y + height)` with counters at `(x, y)` and writes the
buffer to the achromatic bank; the source's `if true` block repeats the
window/counter programming and writes the same buffer to the chromatic
bank. -/
def updatePartialFrame (e : Epd2in13b) (buffer : List Nat)
    (x y width height : Nat) : Option (Epd2in13b × List Event) :=
  if width * height / 8 = buffer.length then
    some (e,
      setRamArea x y (x + width) (y + height) ++
      setRamAddressCounters x y ++
      cmdWithData .WriteRam buffer ++
      setRamArea x y (x + width) (y + height) ++
      setRamAddressCounters x y ++
      cmdWithData .WriteRamRed buffer)
  else none

/-- `display_frame` from `mod.rs`: stages the display-update-control-2
bitmask (enable clock, enable analog, load LUT, load temperature, trigger
display, disable analog, disable clock — chained in that order), issues a
single master activation, then waits until idle. -/
def displayFrame (e : Epd2in13b) : Epd2in13b × List Event :=
  (e,
    cmdWithData .DisplayUpdateControl2
      [(DisplayUpdateControl2Cfg.new.enableClock.enableAnalog.loadLut.loadTemp.display.disableAnalog.disableClock).val] ++
    command .MasterActivation ++
    waitUntilIdle)

/-- `update_and_display_frame` from `mod.rs`: `update_frame` then
`display_frame`. -/
def updateAndDisplayFrame (e : Epd2in13b) (buffer : List Nat) :
    Option (Epd2in13b × List Event) :=
  match updateFrame e buffer with
  | none => none
  | some (e1, t1) =>
    match displayFrame e1 with
    | (e2, t2) => some (e2, t1 ++ t2)

/-- `clear_frame` from `mod.rs`: programs the full-panel window and origin
counters, fills the achromatic bank (0x24) with the background byte over
the full plane, then (the source's `if true` block) re-programs the window
and fills the chromatic bank (0x26) the same way. -/
def clearFrame (e : Epd2in13b) : Epd2in13b × List Event :=
  (e,
    setRamArea 0 0 (WIDTH - 1) (HEIGHT - 1) ++
    setRamAddressCounters 0 0 ++
    command .WriteRam ++
    dataXTimes e.background_color (buffer_len WIDTH HEIGHT) ++
    setRamArea 0 0 (WIDTH - 1) (HEIGHT - 1) ++
    setRamAddressCounters 0 0 ++
    command .WriteRamRed ++
    dataXTimes e.background_color (buffer_len WIDTH HEIGHT))

/-- `set_lut` from `mod.rs`: selects the full-refresh table for `none` or
`some Full` and the quick-refresh table for `some Quick`, then writes it
via the write-LUT-register command.  The two built-in tables live in the
constants module outside `src/`, so they are passed as parameters and the
theorems quantify over their contents. -/
def setLut (lutFullUpdate lutQuickUpdate : List Nat) (e : Epd2in13b)
    (refresh_rate : Option RefreshLut) : Epd2in13b × List Event :=
  let buffer := match refresh_rate with
    | some RefreshLut.Full | none => lutFullUpdate
    | some RefreshLut.Quick => lutQuickUpdate
  (e, cmdWithData .WriteLutRegister buffer)

/-- Counts the command events in a trace carrying a given opcode. -/
def countCmd (t : List Event) (op : Nat) : Nat :=
  (t.filter fun ev => match ev with
    | Event.cmd o => o == op
    | _ => false).length

/-- Modelled from the spec: the display controller as seen through the RAM
write protocol.  It holds the programmed address window (X in byte units,
as sent on the bus after the `>> 3` conversion), the write cursor, the two
RAM banks (achromatic `bw`, chromatic `red`, each addressed by X byte
column and Y row), and the opcode of the last command byte, which selects
how subsequent data bytes are interpreted. -/
structure Ctrl where
  lastCmd : Nat
  xStart : Nat
  xEnd : Nat
  yStart : Nat
  yEnd : Nat
  xAddr : Nat
  yAddr : Nat
  bw : Nat → Nat → Nat
  red : Nat → Nat → Nat

/-- Modelled from the spec: one RAM data byte lands at the cursor of the
bank selected by the last RAM-write command, then the cursor advances in
the X-increment/Y-increment, X-major data-entry mode programmed by the
driver: X steps forward and wraps to the window's X start, carrying into
Y, once it reaches the window's X end. -/
def writeByte (b : Nat) (c : Ctrl) : Ctrl :=
  let bw' := fun px py =>
    if c.lastCmd = 0x24 ∧ px = c.xAddr ∧ py = c.yAddr then b else c.bw px py
  let red' := fun px py =>
    if c.lastCmd = 0x26 ∧ px = c.xAddr ∧ py = c.yAddr then b else c.red px py
  if c.xEnd ≤ c.xAddr then
    { c with bw := bw', red := red', xAddr := c.xStart, yAddr := c.yAddr + 1 }
  else
    { c with bw := bw', red := red', xAddr := c.xAddr + 1 }

/-- Writes the same byte `n` times (the effect of `data_x_times`). -/
def writeRep (b : Nat) : Nat → Ctrl → Ctrl
  | 0, c => c
  | n + 1, c => writeRep b n (writeByte b c)

/-- Writes a list of bytes in order (the effect of a data payload sent
after a RAM-write command). -/
def writeList : List Nat → Ctrl → Ctrl
  | [], c => c
  | b :: rest, c => writeList rest (writeByte b c)

/-- Modelled from the spec: interpretation of a data payload according to
the preceding command — window bounds for 0x44/0x45, cursor for 0x4E/0x4F
(Y values little-endian 16-bit), RAM writes for 0x24/0x26; payloads of
other commands do not touch the RAM model. -/
def applyData (bytes : List Nat) (c : Ctrl) : Ctrl :=
  if c.lastCmd = 0x44 then
    match bytes with
    | [a, b] => { c with xStart := a, xEnd := b }
    | _ => c
  else if c.lastCmd = 0x45 then
    match bytes with
    | [a, b, d, e] => { c with yStart := a + 256 * b, yEnd := d + 256 * e }
    | _ => c
  else if c.lastCmd = 0x4E then
    match bytes with
    | [a] => { c with xAddr := a }
    | _ => c
  else if c.lastCmd = 0x4F then
    match bytes with
    | [a, b] => { c with yAddr := a + 256 * b }
    | _ => c
  else if c.lastCmd = 0x24 ∨ c.lastCmd = 0x26 then writeList bytes c
  else c

/-- Runs one bus event on the controller model. -/
def execEvent (c : Ctrl) : Event → Ctrl
  | .cmd op => { c with lastCmd := op }
  | .data bytes => applyData bytes c
  | .dataRep b n =>
    if c.lastCmd = 0x24 ∨ c.lastCmd = 0x26 then writeRep b n c else c
  | .waitIdle => c

/-- Runs a whole event trace on the controller model. -/
def execEvents : List Event → Ctrl → Ctrl
  | [], c => c
  | ev :: rest, c => execEvents rest (execEvent c ev)

theorem execEvents_append (t1 t2 : List Event) (c : Ctrl) :
    execEvents (t1 ++ t2) c = execEvents t2 (execEvents t1 c) := by
  induction t1 generalizing c with
  | nil => rfl
  | cons ev rest ih => simp [execEvents, ih]

theorem writeByte_lastCmd (b : Nat) (c : Ctrl) :
    (writeByte b c).lastCmd = c.lastCmd := by
  simp only [writeByte]; split <;> rfl

theorem writeByte_xStart (b : Nat) (c : Ctrl) :
    (writeByte b c).xStart = c.xStart := by
  simp only [writeByte]; split <;> rfl

theorem writeByte_xEnd (b : Nat) (c : Ctrl) :
    (writeByte b c).xEnd = c.xEnd := by
  simp only [writeByte]; split <;> rfl

theorem writeByte_yStart (b : Nat) (c : Ctrl) :
    (writeByte b c).yStart = c.yStart := by
  simp only [writeByte]; split <;> rfl

theorem writeByte_yEnd (b : Nat) (c : Ctrl) :
    (writeByte b c).yEnd = c.yEnd := by
  simp only [writeByte]; split <;> rfl

theorem writeByte_xAddr (b : Nat) (c : Ctrl) :
    (writeByte b c).xAddr = if c.xEnd ≤ c.xAddr then c.xStart else c.xAddr + 1 := by
  simp only [writeByte]; split <;> rfl

theorem writeByte_yAddr (b : Nat) (c : Ctrl) :
    (writeByte b c).yAddr = if c.xEnd ≤ c.xAddr then c.yAddr + 1 else c.yAddr := by
  simp only [writeByte]; split <;> rfl

theorem writeByte_bw_at (b : Nat) (c : Ctrl) (px py : Nat) :
    (writeByte b c).bw px py =
      if c.lastCmd = 0x24 ∧ px = c.xAddr ∧ py = c.yAddr then b
      else c.bw px py := by
  simp only [writeByte]; split <;> rfl

theorem writeByte_red_at (b : Nat) (c : Ctrl) (px py : Nat) :
    (writeByte b c).red px py =
      if c.lastCmd = 0x26 ∧ px = c.xAddr ∧ py = c.yAddr then b
      else c.red px py := by
  simp only [writeByte]; split <;> rfl

/-- Under the full-panel window (X bytes 0..15), a repeated write of `n`
bytes starting at linear offset `k` from row `y0` fills exactly the RAM
cells whose linear offset lies in `[k, k + n)` of the achromatic bank,
leaves the chromatic bank alone, and advances the cursor by `n`. -/
theorem writeRep_fill24 (b : Nat) (n : Nat) :
    ∀ (k y0 : Nat) (c : Ctrl), c.lastCmd = 0x24 → c.xStart = 0 → c.xEnd = 15 →
    c.xAddr = k % 16 → c.yAddr = y0 + k / 16 →
    (∀ px py, (writeRep b n c).bw px py =
        if px ≤ 15 ∧ y0 ≤ py ∧ k ≤ (py - y0) * 16 + px ∧ (py - y0) * 16 + px < k + n
        then b else c.bw px py) ∧
    (∀ px py, (writeRep b n c).red px py = c.red px py) ∧
    (writeRep b n c).lastCmd = 0x24 ∧
    (writeRep b n c).xStart = 0 ∧
    (writeRep b n c).xEnd = 15 ∧
    (writeRep b n c).yStart = c.yStart ∧
    (writeRep b n c).yEnd = c.yEnd ∧
    (writeRep b n c).xAddr = (k + n) % 16 ∧
    (writeRep b n c).yAddr = y0 + (k + n) / 16 := by
  induction n with
  | zero =>
    intro k y0 c h24 hxs hxe hx hy
    refine ⟨?_, fun px py => rfl, h24, hxs, hxe, rfl, rfl, ?_, ?_⟩
    · intro px py
      show c.bw px py = _
      split_ifs with h
      · exfalso; omega
      · rfl
    · show c.xAddr = (k + 0) % 16
      omega
    · show c.yAddr = y0 + (k + 0) / 16
      omega
  | succ n ih =>
    intro k y0 c h24 hxs hxe hx hy
    have hbL : (writeByte b c).lastCmd = 0x24 := by rw [writeByte_lastCmd, h24]
    have hbS : (writeByte b c).xStart = 0 := by rw [writeByte_xStart, hxs]
    have hbE : (writeByte b c).xEnd = 15 := by rw [writeByte_xEnd, hxe]
    have hbX : (writeByte b c).xAddr = (k + 1) % 16 := by
      rw [writeByte_xAddr, hxe, hxs, hx]
      split <;> omega
    have hbY : (writeByte b c).yAddr = y0 + (k + 1) / 16 := by
      rw [writeByte_yAddr, hxe, hx, hy]
      split <;> omega
    obtain ⟨ibw, ired, iL, iS, iE, iYS, iYE, iX, iY⟩ :=
      ih (k + 1) y0 (writeByte b c) hbL hbS hbE hbX hbY
    have hrec : writeRep b (n + 1) c = writeRep b n (writeByte b c) := rfl
    refine ⟨?_, ?_, ?_, ?_, ?_, ?_, ?_, ?_, ?_⟩
    · intro px py
      rw [hrec, ibw px py, writeByte_bw_at]
      split_ifs <;> first | rfl | (exfalso; omega)
    · intro px py
      rw [hrec, ired px py, writeByte_red_at]
      split_ifs with h
      · exfalso; omega
      · rfl
    · rw [hrec, iL]
    · rw [hrec, iS]
    · rw [hrec, iE]
    · rw [hrec, iYS, writeByte_yStart]
    · rw [hrec, iYE, writeByte_yEnd]
    · rw [hrec, iX]; omega
    · rw [hrec, iY]; omega

/-- Under the full-panel window, a repeated write selected on the chromatic
bank fills exactly the linear-offset range `[k, k + n)` of the chromatic
bank, leaves the achromatic bank alone, and advances the cursor by `n`. -/
theorem writeRep_fill26 (b : Nat) (n : Nat) :
    ∀ (k y0 : Nat) (c : Ctrl), c.lastCmd = 0x26 → c.xStart = 0 → c.xEnd = 15 →
    c.xAddr = k % 16 → c.yAddr = y0 + k / 16 →
    (∀ px py, (writeRep b n c).red px py =
        if px ≤ 15 ∧ y0 ≤ py ∧ k ≤ (py - y0) * 16 + px ∧ (py - y0) * 16 + px < k + n
        then b else c.red px py) ∧
    (∀ px py, (writeRep b n c).bw px py = c.bw px py) ∧
    (writeRep b n c).lastCmd = 0x26 ∧
    (writeRep b n c).xStart = 0 ∧
    (writeRep b n c).xEnd = 15 ∧
    (writeRep b n c).yStart = c.yStart ∧
    (writeRep b n c).yEnd = c.yEnd ∧
    (writeRep b n c).xAddr = (k + n) % 16 ∧
    (writeRep b n c).yAddr = y0 + (k + n) / 16 := by
  induction n with
  | zero =>
    intro k y0 c h26 hxs hxe hx hy
    refine ⟨?_, fun px py => rfl, h26, hxs, hxe, rfl, rfl, ?_, ?_⟩
    · intro px py
      show c.red px py = _
      split_ifs with h
      · exfalso; omega
      · rfl
    · show c.xAddr = (k + 0) % 16
      omega
    · show c.yAddr = y0 + (k + 0) / 16
      omega
  | succ n ih =>
    intro k y0 c h26 hxs hxe hx hy
    have hbL : (writeByte b c).lastCmd = 0x26 := by rw [writeByte_lastCmd, h26]
    have hbS : (writeByte b c).xStart = 0 := by rw [writeByte_xStart, hxs]
    have hbE : (writeByte b c).xEnd = 15 := by rw [writeByte_xEnd, hxe]
    have hbX : (writeByte b c).xAddr = (k + 1) % 16 := by
      rw [writeByte_xAddr, hxe, hxs, hx]
      split <;> omega
    have hbY : (writeByte b c).yAddr = y0 + (k + 1) / 16 := by
      rw [writeByte_yAddr, hxe, hx, hy]
      split <;> omega
    obtain ⟨ired, ibw, iL, iS, iE, iYS, iYE, iX, iY⟩ :=
      ih (k + 1) y0 (writeByte b c) hbL hbS hbE hbX hbY
    have hrec : writeRep b (n + 1) c = writeRep b n (writeByte b c) := rfl
    refine ⟨?_, ?_, ?_, ?_, ?_, ?_, ?_, ?_, ?_⟩
    · intro px py
      rw [hrec, ired px py, writeByte_red_at]
      split_ifs <;> first | rfl | (exfalso; omega)
    · intro px py
      rw [hrec, ibw px py, writeByte_bw_at]
      split_ifs with h
      · exfalso; omega
      · rfl
    · rw [hrec, iL]
    · rw [hrec, iS]
    · rw [hrec, iE]
    · rw [hrec, iYS, writeByte_yStart]
    · rw [hrec, iYE, writeByte_yEnd]
    · rw [hrec, iX]; omega
    · rw [hrec, iY]; omega

/-- Running the window/counter programming that precedes every RAM write
of the driver — full-panel `set_ram_area`, origin `set_ram_address_counters`,
then the RAM-write command byte — programs the controller window to
X bytes 0..15 and Y rows 0..249, homes the cursor, and leaves both banks
untouched. -/
theorem exec_prep (op : Nat) (c : Ctrl) :
    (execEvents (setRamArea 0 0 (WIDTH - 1) (HEIGHT - 1) ++
      setRamAddressCounters 0 0 ++ [Event.cmd op]) c).lastCmd = op ∧
    (execEvents (setRamArea 0 0 (WIDTH - 1) (HEIGHT - 1) ++
      setRamAddressCounters 0 0 ++ [Event.cmd op]) c).xStart = 0 ∧
    (execEvents (setRamArea 0 0 (WIDTH - 1) (HEIGHT - 1) ++
      setRamAddressCounters 0 0 ++ [Event.cmd op]) c).xEnd = 15 ∧
    (execEvents (setRamArea 0 0 (WIDTH - 1) (HEIGHT - 1) ++
      setRamAddressCounters 0 0 ++ [Event.cmd op]) c).yStart = 0 ∧
    (execEvents (setRamArea 0 0 (WIDTH - 1) (HEIGHT - 1) ++
      setRamAddressCounters 0 0 ++ [Event.cmd op]) c).yEnd = 249 ∧
    (execEvents (setRamArea 0 0 (WIDTH - 1) (HEIGHT - 1) ++
      setRamAddressCounters 0 0 ++ [Event.cmd op]) c).xAddr = 0 ∧
    (execEvents (setRamArea 0 0 (WIDTH - 1) (HEIGHT - 1) ++
      setRamAddressCounters 0 0 ++ [Event.cmd op]) c).yAddr = 0 ∧
    (execEvents (setRamArea 0 0 (WIDTH - 1) (HEIGHT - 1) ++
      setRamAddressCounters 0 0 ++ [Event.cmd op]) c).bw = c.bw ∧
    (execEvents (setRamArea 0 0 (WIDTH - 1) (HEIGHT - 1) ++
      setRamAddressCounters 0 0 ++ [Event.cmd op]) c).red = c.red :=
  ⟨rfl, rfl, rfl, rfl, rfl, rfl, rfl, rfl, rfl⟩

/-- Running the full `clear_frame` trace on any controller state overwrites
every full-panel cell of both RAM banks with the background byte and leaves
all other RAM cells unchanged. -/
theorem clearFrame_exec (bg : Nat) (c : Ctrl) :
    (∀ px py, (execEvents (clearFrame ⟨bg⟩).2 c).bw px py =
      if px ≤ 15 ∧ py ≤ 249 then bg else c.bw px py) ∧
    (∀ px py, (execEvents (clearFrame ⟨bg⟩).2 c).red px py =
      if px ≤ 15 ∧ py ≤ 249 then bg else c.red px py) := by
  have htr : (clearFrame ⟨bg⟩).2 =
      (setRamArea 0 0 (WIDTH - 1) (HEIGHT - 1) ++
        setRamAddressCounters 0 0 ++ [Event.cmd 0x24]) ++
      ([Event.dataRep bg 4000] ++
        ((setRamArea 0 0 (WIDTH - 1) (HEIGHT - 1) ++
          setRamAddressCounters 0 0 ++ [Event.cmd 0x26]) ++
        [Event.dataRep bg 4000])) := rfl
  rw [htr, execEvents_append, execEvents_append, execEvents_append]
  obtain ⟨p1L, p1XS, p1XE, _, _, p1X, p1Y, p1BW, p1RED⟩ := exec_prep 0x24 c
  have hD1 : execEvents [Event.dataRep bg 4000]
      (execEvents (setRamArea 0 0 (WIDTH - 1) (HEIGHT - 1) ++
        setRamAddressCounters 0 0 ++ [Event.cmd 0x24]) c) =
      writeRep bg 4000
        (execEvents (setRamArea 0 0 (WIDTH - 1) (HEIGHT - 1) ++
          setRamAddressCounters 0 0 ++ [Event.cmd 0x24]) c) := by
    simp [execEvents, execEvent, p1L]
  rw [hD1]
  obtain ⟨f1bw, f1red, _, _, _, _, _, _, _⟩ :=
    writeRep_fill24 bg 4000 0 0
      (execEvents (setRamArea 0 0 (WIDTH - 1) (HEIGHT - 1) ++
        setRamAddressCounters 0 0 ++ [Event.cmd 0x24]) c)
      p1L p1XS p1XE (by rw [p1X]) (by rw [p1Y])
  obtain ⟨q1L, q1XS, q1XE, _, _, q1X, q1Y, q1BW, q1RED⟩ :=
    exec_prep 0x26
      (writeRep bg 4000
        (execEvents (setRamArea 0 0 (WIDTH - 1) (HEIGHT - 1) ++
          setRamAddressCounters 0 0 ++ [Event.cmd 0x24]) c))
  have hD2 : execEvents [Event.dataRep bg 4000]
      (execEvents (setRamArea 0 0 (WIDTH - 1) (HEIGHT - 1) ++
        setRamAddressCounters 0 0 ++ [Event.cmd 0x26])
        (writeRep bg 4000
          (execEvents (setRamArea 0 0 (WIDTH - 1) (HEIGHT - 1) ++
            setRamAddressCounters 0 0 ++ [Event.cmd 0x24]) c))) =
      writeRep bg 4000
        (execEvents (setRamArea 0 0 (WIDTH - 1) (HEIGHT - 1) ++
          setRamAddressCounters 0 0 ++ [Event.cmd 0x26])
          (writeRep bg 4000
            (execEvents (setRamArea 0 0 (WIDTH - 1) (HEIGHT - 1) ++
              setRamAddressCounters 0 0 ++ [Event.cmd 0x24]) c))) := by
    simp [execEvents, execEvent, q1L]
  rw [hD2]
  obtain ⟨g2red, g2bw, _, _, _, _, _, _, _⟩ :=
    writeRep_fill26 bg 4000 0 0
      (execEvents (setRamArea 0 0 (WIDTH - 1) (HEIGHT - 1) ++
        setRamAddressCounters 0 0 ++ [Event.cmd 0x26])
        (writeRep bg 4000
          (execEvents (setRamArea 0 0 (WIDTH - 1) (HEIGHT - 1) ++
            setRamAddressCounters 0 0 ++ [Event.cmd 0x24]) c)))
      q1L q1XS q1XE (by rw [q1X]) (by rw [q1Y])
  constructor
  · intro px py
    rw [g2bw px py, q1BW, f1bw px py, p1BW]
    split_ifs <;> first | rfl | (exfalso; omega)
  · intro px py
    rw [g2red px py, q1RED, f1red px py, p1RED]
    split_ifs <;> first | rfl | (exfalso; omega)

/-- C6: for every combination of the three border-waveform sub-fields the
encoded byte is `(vbd & 0b11) << 6 | (fix_level & 0b11) << 4 |
(gs_transition & 0b11)` with bits 2 and 3 clear; `Gs`/`Vss`/`Lut3`
encodes to `0x03` and `Vcom`/`Vsh1`/`Lut0` encodes to `0x90`. -/
theorem borderWaveForm_to_u8_spec :
    (∀ b : BorderWaveForm,
      b.to_u8 = ((b.vbd.toNat % 4) <<< 6) ||| ((b.fix_level.toNat % 4) <<< 4) |||
        (b.gs_trans.toNat % 4) ∧
      Nat.testBit b.to_u8 2 = false ∧ Nat.testBit b.to_u8 3 = false) ∧
    BorderWaveForm.to_u8 ⟨.Gs, .Vss, .Lut3⟩ = 0x03 ∧
    BorderWaveForm.to_u8 ⟨.Vcom, .Vsh1, .Lut0⟩ = 0x90 := by
  refine ⟨?_, by decide, by decide⟩
  rintro ⟨v, f, g⟩
  cases v <;> cases f <;> cases g <;> exact ⟨by decide, by decide, by decide⟩

/-- C7: `set_ram_area` emits the X-range command (0x44) with payload
`[start_x >> 3, end_x >> 3]` and the Y-range command (0x45) with both Y
bounds as little-endian 16-bit pairs (each value truncated to bytes as the
`as u8` casts do); in particular `start_x = 0, end_x = 121` yields the X
payload `[0x00, 0x0F]`. -/
theorem setRamArea_spec :
    (∀ start_x start_y end_x end_y : Nat,
      setRamArea start_x start_y end_x end_y =
        [Event.cmd 0x44,
         Event.data [(start_x >>> 3) % 256, (end_x >>> 3) % 256],
         Event.cmd 0x45,
         Event.data [start_y % 256, (start_y >>> 8) % 256,
                     end_y % 256, (end_y >>> 8) % 256]]) ∧
    setRamArea 0 0 121 249 =
      [Event.cmd 0x44, Event.data [0x00, 0x0F],
       Event.cmd 0x45, Event.data [0x00, 0x00, 0xF9, 0x00]] :=
  ⟨fun _ _ _ _ => rfl, by decide⟩

/-- C5: `display_frame` emits exactly the display-update-control-2 command
(0x22) with the single byte obtained by chaining enable clock, enable
analog, load LUT, load temperature, trigger display, disable analog and
disable clock on a fresh bitmask, then a single master-activation command
(0x20) with no payload, then one busy-pin wait; all seven action bits are
set in that byte. -/
theorem displayFrame_spec (e : Epd2in13b) :
    displayFrame e =
      (e, [Event.cmd 0x22, Event.data [0xF7], Event.cmd 0x20, Event.waitIdle]) ∧
    (DisplayUpdateControl2Cfg.new.enableClock.enableAnalog.loadLut.loadTemp.display.disableAnalog.disableClock).val
      = 0xF7 ∧
    (Nat.testBit 0xF7 7 = true ∧ Nat.testBit 0xF7 6 = true ∧
     Nat.testBit 0xF7 5 = true ∧ Nat.testBit 0xF7 4 = true ∧
     Nat.testBit 0xF7 2 = true ∧ Nat.testBit 0xF7 1 = true ∧
     Nat.testBit 0xF7 0 = true) :=
  ⟨rfl, rfl, by decide⟩

/-- C10: `set_lut` with `none` behaves identically to `set_lut` with
`some Full`: both write the built-in full-refresh LUT table through the
write-LUT-register command (0x32), whatever the table contents are. -/
theorem setLut_none_defaults_full (lutFullUpdate lutQuickUpdate : List Nat)
    (e : Epd2in13b) :
    setLut lutFullUpdate lutQuickUpdate e none =
      setLut lutFullUpdate lutQuickUpdate e (some RefreshLut.Full) ∧
    setLut lutFullUpdate lutQuickUpdate e none =
      (e, [Event.cmd 0x32, Event.data lutFullUpdate]) :=
  ⟨rfl, rfl⟩

/-- C4: `update_frame` fails (the modelled fatal assertion, `none`) exactly
when the buffer length differs from the full plane size
`ceil(122/8) * 250 = 4000`; every 4000-byte buffer passes the check. -/
theorem updateFrame_length_check (e : Epd2in13b) (buffer : List Nat) :
    buffer_len WIDTH HEIGHT = 4000 ∧
    (updateFrame e buffer = none ↔ buffer.length ≠ 4000) ∧
    ((updateFrame e buffer).isSome ↔ buffer.length = 4000) := by
  refine ⟨rfl, ?_, ?_⟩
  · unfold updateFrame
    rw [show buffer_len WIDTH HEIGHT = 4000 from rfl]
    split_ifs with hl <;> simp [hl]
  · unfold updateFrame
    rw [show buffer_len WIDTH HEIGHT = 4000 from rfl]
    split_ifs with hl <;> simp [hl]

/-- C3: for a full-plane buffer, `update_frame` programs the full-panel
RAM window and origin counters, writes the buffer to the achromatic bank
(0x24), re-programs the window and counters, and fills the chromatic bank
(0x26) with the background byte repeated over the full plane size. -/
theorem updateFrame_spec (e : Epd2in13b) (buffer : List Nat)
    (h : buffer.length = buffer_len WIDTH HEIGHT) :
    updateFrame e buffer = some (e,
      [Event.cmd 0x44, Event.data [0x00, 0x0F],
       Event.cmd 0x45, Event.data [0x00, 0x00, 0xF9, 0x00],
       Event.waitIdle, Event.cmd 0x4E, Event.data [0x00],
       Event.cmd 0x4F, Event.data [0x00, 0x00],
       Event.cmd 0x24, Event.data buffer,
       Event.cmd 0x44, Event.data [0x00, 0x0F],
       Event.cmd 0x45, Event.data [0x00, 0x00, 0xF9, 0x00],
       Event.waitIdle, Event.cmd 0x4E, Event.data [0x00],
       Event.cmd 0x4F, Event.data [0x00, 0x00],
       Event.cmd 0x26, Event.dataRep e.background_color 4000]) := by
  unfold updateFrame
  rw [if_pos h]
  rfl

theorem updateFrame_spec_witness :
    (List.replicate 4000 (0 : Nat)).length = buffer_len WIDTH HEIGHT ∧
    updateFrame ⟨0xFF⟩ (List.replicate 4000 0) = some (⟨0xFF⟩,
      [Event.cmd 0x44, Event.data [0x00, 0x0F],
       Event.cmd 0x45, Event.data [0x00, 0x00, 0xF9, 0x00],
       Event.waitIdle, Event.cmd 0x4E, Event.data [0x00],
       Event.cmd 0x4F, Event.data [0x00, 0x00],
       Event.cmd 0x24, Event.data (List.replicate 4000 0),
       Event.cmd 0x44, Event.data [0x00, 0x0F],
       Event.cmd 0x45, Event.data [0x00, 0x00, 0xF9, 0x00],
       Event.waitIdle, Event.cmd 0x4E, Event.data [0x00],
       Event.cmd 0x4F, Event.data [0x00, 0x00],
       Event.cmd 0x26, Event.dataRep 0xFF 4000]) :=
  ⟨by rw [List.length_replicate]; rfl,
   updateFrame_spec ⟨0xFF⟩ (List.replicate 4000 0) (by rw [List.length_replicate]; rfl)⟩

/-- C8: for a full-plane buffer, `update_and_display_frame` is
observationally equivalent to `update_frame` followed by `display_frame`:
it emits the update trace followed by the display trace and ends in the
same driver state. -/
theorem updateAndDisplayFrame_equiv (e : Epd2in13b) (buffer : List Nat)
    (h : buffer.length = buffer_len WIDTH HEIGHT) :
    ∃ t, updateFrame e buffer = some (e, t) ∧
      updateAndDisplayFrame e buffer =
        some ((displayFrame e).1, t ++ (displayFrame e).2) ∧
      (displayFrame e).1 = e := by
  unfold updateAndDisplayFrame updateFrame
  rw [if_pos h]
  exact ⟨_, rfl, rfl, rfl⟩

theorem updateAndDisplayFrame_equiv_witness :
    (List.replicate 4000 (0 : Nat)).length = buffer_len WIDTH HEIGHT ∧
    (∃ t, updateFrame ⟨0xFF⟩ (List.replicate 4000 0) = some (⟨0xFF⟩, t) ∧
      updateAndDisplayFrame ⟨0xFF⟩ (List.replicate 4000 0) =
        some ((displayFrame ⟨0xFF⟩).1, t ++ (displayFrame ⟨0xFF⟩).2) ∧
      (displayFrame ⟨0xFF⟩).1 = ⟨0xFF⟩) :=
  ⟨by rw [List.length_replicate]; rfl,
   updateAndDisplayFrame_equiv ⟨0xFF⟩ (List.replicate 4000 0)
     (by rw [List.length_replicate]; rfl)⟩

/-- C2 as stated is false: at `x = 0, y = 0, width = 8, height = 8` with an
8-byte buffer, `update_partial_frame` programs the window with end
coordinates `x + width = 8, y + height = 8` (X payload `[0x00, 0x01]`), not
with the sub-rectangle's last pixel `x + width - 1 = 7, y + height - 1 = 7`
(X payload `[0x00, 0x00]`) that the claim requires. -/
theorem updatePartialFrame_window_cex :
    (updatePartialFrame ⟨0xFF⟩ (List.replicate 8 0) 0 0 8 8).map Prod.snd =
      some (setRamArea 0 0 8 8 ++ setRamAddressCounters 0 0 ++
            cmdWithData .WriteRam (List.replicate 8 0) ++
            setRamArea 0 0 8 8 ++ setRamAddressCounters 0 0 ++
            cmdWithData .WriteRamRed (List.replicate 8 0)) ∧
    setRamArea 0 0 8 8 =
      [Event.cmd 0x44, Event.data [0x00, 0x01],
       Event.cmd 0x45, Event.data [0x00, 0x00, 0x08, 0x00]] ∧
    ¬((updatePartialFrame ⟨0xFF⟩ (List.replicate 8 0) 0 0 8 8).map Prod.snd =
      some (setRamArea 0 0 7 7 ++ setRamAddressCounters 0 0 ++
            cmdWithData .WriteRam (List.replicate 8 0) ++
            setRamArea 0 0 7 7 ++ setRamAddressCounters 0 0 ++
            cmdWithData .WriteRamRed (List.replicate 8 0))) := by
  decide

/-- C2 (amended): for a buffer of `width * height / 8` bytes,
`update_partial_frame` uses one and the same rectangle
`(x, y, x + width, y + height)` — whose end coordinates are one past the
sub-rectangle's last pixel — for both `set_ram_area` calls, and `(x, y)`
for both `set_ram_address_counters` calls, writing the buffer first to the
achromatic then to the chromatic bank. -/
theorem updatePartialFrame_spec (e : Epd2in13b) (buffer : List Nat)
    (x y width height : Nat) (h : width * height / 8 = buffer.length) :
    updatePartialFrame e buffer x y width height = some (e,
      setRamArea x y (x + width) (y + height) ++
      setRamAddressCounters x y ++
      cmdWithData .WriteRam buffer ++
      setRamArea x y (x + width) (y + height) ++
      setRamAddressCounters x y ++
      cmdWithData .WriteRamRed buffer) ∧
    setRamArea x y (x + width) (y + height) =
      [Event.cmd 0x44,
       Event.data [(x >>> 3) % 256, ((x + width) >>> 3) % 256],
       Event.cmd 0x45,
       Event.data [y % 256, (y >>> 8) % 256,
                   (y + height) % 256, ((y + height) >>> 8) % 256]] := by
  refine ⟨?_, rfl⟩
  unfold updatePartialFrame
  rw [if_pos h]

theorem updatePartialFrame_spec_witness :
    8 * 8 / 8 = (List.replicate 8 (0 : Nat)).length ∧
    (updatePartialFrame ⟨0xFF⟩ (List.replicate 8 0) 0 0 8 8 = some (⟨0xFF⟩,
      setRamArea 0 0 (0 + 8) (0 + 8) ++
      setRamAddressCounters 0 0 ++
      cmdWithData .WriteRam (List.replicate 8 0) ++
      setRamArea 0 0 (0 + 8) (0 + 8) ++
      setRamAddressCounters 0 0 ++
      cmdWithData .WriteRamRed (List.replicate 8 0)) ∧
    setRamArea 0 0 (0 + 8) (0 + 8) =
      [Event.cmd 0x44,
       Event.data [(0 >>> 3) % 256, ((0 + 8) >>> 3) % 256],
       Event.cmd 0x45,
       Event.data [0 % 256, (0 >>> 8) % 256,
                   (0 + 8) % 256, ((0 + 8) >>> 8) % 256]]) :=
  ⟨by rw [List.length_replicate],
   updatePartialFrame_spec ⟨0xFF⟩ (List.replicate 8 0) 0 0 8 8
     (by rw [List.length_replicate])⟩

/-- C1 as stated is false: with background byte `0xFF`, `clear_frame`
selects each RAM bank exactly once (one 0x24 command and one 0x26
command), writing one full-panel fill per bank — not the two fills per
bank the claim requires. -/
theorem clearFrame_twice_per_bank_cex :
    countCmd (clearFrame ⟨0xFF⟩).2 0x24 = 1 ∧
    countCmd (clearFrame ⟨0xFF⟩).2 0x26 = 1 ∧
    ¬(countCmd (clearFrame ⟨0xFF⟩).2 0x24 = 2 ∧
      countCmd (clearFrame ⟨0xFF⟩).2 0x26 = 2) := by
  decide

/-- C1 (amended): for every background byte and every controller state,
`clear_frame` programs the full-panel window and origin counters and
writes one full-plane background fill to each RAM bank (exactly one 0x24
and one 0x26 selection), after which every full-panel cell of both banks
holds the background byte — so the two banks match. -/
theorem clearFrame_spec (bg : Nat) (c : Ctrl) :
    (clearFrame ⟨bg⟩).2 =
      [Event.cmd 0x44, Event.data [0x00, 0x0F],
       Event.cmd 0x45, Event.data [0x00, 0x00, 0xF9, 0x00],
       Event.waitIdle, Event.cmd 0x4E, Event.data [0x00],
       Event.cmd 0x4F, Event.data [0x00, 0x00],
       Event.cmd 0x24, Event.dataRep bg 4000,
       Event.cmd 0x44, Event.data [0x00, 0x0F],
       Event.cmd 0x45, Event.data [0x00, 0x00, 0xF9, 0x00],
       Event.waitIdle, Event.cmd 0x4E, Event.data [0x00],
       Event.cmd 0x4F, Event.data [0x00, 0x00],
       Event.cmd 0x26, Event.dataRep bg 4000] ∧
    countCmd (clearFrame ⟨bg⟩).2 0x24 = 1 ∧
    countCmd (clearFrame ⟨bg⟩).2 0x26 = 1 ∧
    (∀ px py, (execEvents (clearFrame ⟨bg⟩).2 c).bw px py =
      if px ≤ 15 ∧ py ≤ 249 then bg else c.bw px py) ∧
    (∀ px py, (execEvents (clearFrame ⟨bg⟩).2 c).red px py =
      if px ≤ 15 ∧ py ≤ 249 then bg else c.red px py) :=
  ⟨rfl, rfl, rfl, (clearFrame_exec bg c).1, (clearFrame_exec bg c).2⟩

/-- C9: `clear_frame` is idempotent on RAM contents — for every background
byte and every controller state, running the `clear_frame` trace twice
leaves both RAM banks cell-for-cell identical to running it once. -/
theorem clearFrame_idempotent (bg : Nat) (c : Ctrl) :
    (∀ px py,
      (execEvents (clearFrame ⟨bg⟩).2
        (execEvents (clearFrame ⟨bg⟩).2 c)).bw px py =
      (execEvents (clearFrame ⟨bg⟩).2 c).bw px py) ∧
    (∀ px py,
      (execEvents (clearFrame ⟨bg⟩).2
        (execEvents (clearFrame ⟨bg⟩).2 c)).red px py =
      (execEvents (clearFrame ⟨bg⟩).2 c).red px py) := by
  obtain ⟨h1bw, h1red⟩ := clearFrame_exec bg c
  obtain ⟨h2bw, h2red⟩ := clearFrame_exec bg (execEvents (clearFrame ⟨bg⟩).2 c)
  constructor
  · intro px py
    rw [h2bw px py]
    split_ifs with hc
    · rw [h1bw px py, if_pos hc]
    · rfl
  · intro px py
    rw [h2red px py]
    split_ifs with hc
    · rw [h1red px py, if_pos hc]
    · rfl

end Epd2in13bV4
